import Mathlib

/-!
Verification of the market-data feed handler (`src/main.rs`) against its
specification.

The core under verification is `FeedHandler::connect` (the ingestion loop),
the bounded history buffer it feeds (`Vec<MarketData>` capped at 1000 via
`push` + `remove(0)`), and the read accessor `get_latest_data`.

Shallow embedding choices:
* `f64` fields (`price`, `volume`) are modelled as `Rat`.  The program
  performs no floating-point arithmetic on them (they are only stored,
  cloned and logged), so only their identity matters here.
* `u64` (`timestamp`) is modelled as `Nat`; the decode path enforces the
  `< 2^64` bound exactly where serde_json does.
* The WebSocket transport is modelled by its observable interface: the
  handshake outcome, the list of inbound frames (each either a frame or a
  transport-level receive error, mirroring `Result<Message, Error>`), and
  an oracle giving the outcome of each outbound `send` in order.
* A text frame's payload is abstracted by its JSON parse result
  (`Option Json`): `none` stands for a payload that is not valid JSON.
-/

/-- The JSON numbers produced by serde_json's parser (default features):
a non-negative integer literal fitting `u64` (`PosInt`), a negative integer
literal fitting `i64` (`NegInt`), and everything else — fractional,
exponent-bearing or out-of-range literals — as a float (`Float`).  Floats
carry a `Rat`; no arithmetic is done on them. -/
inductive JNum where
  | posInt (n : Nat)
  | negInt (n : Int)
  | float (q : Rat)
deriving Repr

/-- JSON values, as serde_json's `Value` (object field order preserved as
in the input text, which is how serde's map visitor sees them). -/
inductive Json where
  | null
  | bool (b : Bool)
  | num (n : JNum)
  | str (s : String)
  | arr (elems : List Json)
  | obj (fields : List (String × Json))

/-- `Deserialize for f64` on a JSON number: serde_json accepts any number
variant (`as_f64` semantics). -/
def asF64 : JNum → Rat
  | JNum.posInt n => (n : Rat)
  | JNum.negInt n => (n : Rat)
  | JNum.float q => q

/-- `Deserialize for u64` on a JSON number: only a non-negative integer
literal in range succeeds; negative integers and floats (hence all
fractional literals) are rejected, and an integer literal `≥ 2^64` is
parsed as a float by serde_json and hence also rejected. -/
def asU64 : JNum → Option Nat
  | JNum.posInt n => if n < 2 ^ 64 then some n else none
  | JNum.negInt _ => none
  | JNum.float _ => none

/-- `MarketData` (src/main.rs lines 9-15): `symbol: String`,
`price: f64`, `volume: f64`, `timestamp: u64`. -/
structure MarketData where
  symbol : String
  price : Rat
  volume : Rat
  timestamp : Nat
deriving DecidableEq, Repr

/-- The derived `Deserialize` map visitor for `MarketData`: fields are
consumed in input order; a recognised key must not repeat (duplicate-field
error) and its value must have the field's type; unknown keys are ignored
with their values (serde's default, no `deny_unknown_fields`); at the end
all four fields must be present. -/
def decodeFields : List (String × Json) → Option String → Option Rat → Option Rat → Option Nat → Option MarketData
  | [], some s, some p, some v, some t => some ⟨s, p, v, t⟩
  | [], _, _, _, _ => none
  | (key, val) :: rest, s?, p?, v?, t? =>
    if key = "symbol" then
      match s?, val with
      | none, Json.str s => decodeFields rest (some s) p? v? t?
      | _, _ => none
    else if key = "price" then
      match p?, val with
      | none, Json.num jn => decodeFields rest s? (some (asF64 jn)) v? t?
      | _, _ => none
    else if key = "volume" then
      match v?, val with
      | none, Json.num jn => decodeFields rest s? p? (some (asF64 jn)) t?
      | _, _ => none
    else if key = "timestamp" then
      match t?, val with
      | none, Json.num jn =>
        match asU64 jn with
        | some t => decodeFields rest s? p? v? (some t)
        | none => none
      | _, _ => none
    else decodeFields rest s? p? v? t?

/-- `serde_json::from_str::<MarketData>` on a parsed JSON value: a map is
handled by the derived map visitor; serde_json's `deserialize_struct` also
accepts a JSON array of exactly the four field values in declaration order
(its seq visitor); every other value is a type error. -/
def fromJson? (j : Json) : Option MarketData :=
  match j with
  | Json.obj fields => decodeFields fields none none none none
  | Json.arr [Json.str s, Json.num p, Json.num v, Json.num t] =>
    match asU64 t with
    | some ts => some ⟨s, asF64 p, asF64 v, ts⟩
    | none => none
  | _ => none

/-- One store insertion (src/main.rs lines 61-67): `data.push(market_data)`
followed by `if data.len() > 1000 { data.remove(0); }`. -/
def appendRecord (data : List MarketData) (r : MarketData) : List MarketData :=
  let d := data ++ [r]
  if d.length > 1000 then d.eraseIdx 0 else d

/-- `FeedHandler::get_latest_data`: takes the read lock and returns
`data.clone()` — a full copy of the current contents.  In the pure model a
snapshot is the current list value; being a value, it is untouched by any
later `appendRecord`. -/
def get_latest_data (data : List MarketData) : List MarketData :=
  data

/-- A transport-level WebSocket error (`tungstenite::Error`), abstracted
to an identity. -/
structure WsError where
  code : Nat
deriving DecidableEq, Repr

/-- An inbound frame as classified by the loop's `match`: `Text` (payload
abstracted by its JSON parse result, `none` = not valid JSON), `Ping` with
its payload bytes, `Close`, and the `_ => {}` arm (`Binary`, `Pong`,
`Frame`). -/
inductive Frame where
  | text (payload : Option Json)
  | ping (payload : List Nat)
  | close
  | binaryLike

/-- One item of the inbound stream: `Result<Message, Error>`. -/
inductive InMsg where
  | ok (f : Frame)
  | recvErr (e : WsError)

/-- An outbound frame handed to `write.send`: the subscription text or a
pong reply. -/
inductive OutMsg where
  | text (j : Json)
  | pong (payload : List Nat)

/-- The subscription payload
`{"type": "subscribe", "channels": ["ticker", "trades"]}`. -/
def subscribeMsg : Json :=
  Json.obj [("type", Json.str "subscribe"),
            ("channels", Json.arr [Json.str "ticker", Json.str "trades"])]

/-- `Ok(())` or `Err(e)` as returned by `connect`. -/
inductive ConnResult where
  | ok
  | err (e : WsError)
deriving DecidableEq, Repr

/-- Observable outcome of the ingestion loop: the returned `Result`, the
final store contents, the successfully transmitted outbound frames in send
order, and the inbound items left unconsumed when the loop stopped. -/
structure LoopExit where
  result : ConnResult
  store : List MarketData
  sent : List OutMsg
  unread : List InMsg

/-- The `while let Some(msg) = read.next()` loop of `FeedHandler::connect`
(src/main.rs lines 53-85).  `sendRes k` is the environment's outcome for
the k-th `write.send` call (`none` = success); the subscription send is
send 0, so the loop starts at `k = 1`.  Mirrors the source arm by arm:
* `Ok(Text)` — decode; on success push + cap at 1000; on failure continue;
* `Ok(Ping)` — send `Pong` with the same payload, `?` propagates a failure;
* `Ok(Close)` — `break`, loop returns `Ok(())`;
* `Err(e)` — log and `break`: the loop also returns `Ok(())`;
* anything else — ignored. -/
def processMessages (sendRes : Nat → Option WsError) :
    List InMsg → Nat → List MarketData → List OutMsg → LoopExit
  | [], _, store, sent => ⟨ConnResult.ok, store, sent, []⟩
  | InMsg.ok (Frame.text p) :: rest, k, store, sent =>
    match p.bind fromJson? with
    | some r => processMessages sendRes rest k (appendRecord store r) sent
    | none => processMessages sendRes rest k store sent
  | InMsg.ok (Frame.ping payload) :: rest, k, store, sent =>
    match sendRes k with
    | none => processMessages sendRes rest (k + 1) store (sent ++ [OutMsg.pong payload])
    | some e => ⟨ConnResult.err e, store, sent, rest⟩
  | InMsg.ok Frame.close :: rest, _, store, sent => ⟨ConnResult.ok, store, sent, rest⟩
  | InMsg.ok Frame.binaryLike :: rest, k, store, sent => processMessages sendRes rest k store sent
  | InMsg.recvErr _ :: rest, _, store, sent => ⟨ConnResult.ok, store, sent, rest⟩

/-- `FeedHandler::connect` from a fresh handler (empty store):
`connect_async` (outcome `handshake`, `?` propagates), then the
subscription send (send 0, `?` propagates), then the message loop. -/
def connect (handshake : Option WsError) (sendRes : Nat → Option WsError)
    (msgs : List InMsg) : LoopExit :=
  match handshake with
  | some e => ⟨ConnResult.err e, [], [], msgs⟩
  | none =>
    match sendRes 0 with
    | some e => ⟨ConnResult.err e, [], [], msgs⟩
    | none => processMessages sendRes msgs 1 [] [OutMsg.text subscribeMsg]

/-- A well-formed data payload with an arbitrary JSON number in the
`timestamp` position; `price` and `volume` are float literals. -/
def mkDataMsgNum (s : String) (p v : Rat) (t : JNum) : Json :=
  Json.obj [("symbol", Json.str s), ("price", Json.num (JNum.float p)),
            ("volume", Json.num (JNum.float v)), ("timestamp", Json.num t)]

/-- The concrete scenario of the spec (§8): appending the example record
to an empty store and snapshotting yields that one record; appending it a
second time yields both copies in order. -/
theorem concrete_scenario :
    get_latest_data (appendRecord [] ⟨"BTCUSD", 50000, 3 / 2, 1234567890⟩)
        = [⟨"BTCUSD", 50000, 3 / 2, 1234567890⟩] ∧
    get_latest_data (appendRecord (appendRecord [] ⟨"BTCUSD", 50000, 3 / 2, 1234567890⟩)
          ⟨"BTCUSD", 50000, 3 / 2, 1234567890⟩)
        = [⟨"BTCUSD", 50000, 3 / 2, 1234567890⟩, ⟨"BTCUSD", 50000, 3 / 2, 1234567890⟩] :=
  ⟨rfl, rfl⟩

/-! ## Bounded History Store lemmas -/

/-- A single `push` + conditional `remove(0)` equals appending and then
dropping the overflow (0 or 1 elements), provided the store is within
capacity. -/
theorem appendRecord_eq_drop (data : List MarketData) (r : MarketData) (h : data.length ≤ 1000) :
    appendRecord data r = (data ++ [r]).drop (data.length + 1 - 1000) := by
  simp only [appendRecord]
  rcases Nat.lt_or_ge data.length 1000 with hlt | hge
  · rw [if_neg (by simp; omega)]
    rw [Nat.sub_eq_zero_of_le (by omega), List.drop_zero]
  · have h1000 : data.length = 1000 := Nat.le_antisymm h hge
    have hone : data.length + 1 - 1000 = 1 := by omega
    rw [hone, if_pos (by simp [h1000]), List.eraseIdx_zero, List.drop_one]

/-- Folding `appendRecord` over a batch keeps exactly the most recent 1000
elements of `store ++ rs`. -/
theorem foldl_appendRecord_eq_drop (rs : List MarketData) :
    ∀ store : List MarketData, store.length ≤ 1000 →
      List.foldl appendRecord store rs = (store ++ rs).drop (store.length + rs.length - 1000) := by
  induction rs with
  | nil =>
    intro store h
    simp [Nat.sub_eq_zero_of_le h]
  | cons r rest ih =>
    intro store h
    rw [List.foldl_cons, appendRecord_eq_drop store r h]
    rcases Nat.lt_or_ge store.length 1000 with hlt | hge
    · rw [Nat.sub_eq_zero_of_le (by omega), List.drop_zero]
      rw [ih (store ++ [r]) (by simp; omega)]
      have hidx : (store ++ [r]).length + rest.length - 1000
          = store.length + (r :: rest).length - 1000 := by
        simp only [List.length_append, List.length_cons, List.length_nil]
        omega
      rw [hidx, List.append_assoc, List.singleton_append]
    · have h1000 : store.length = 1000 := Nat.le_antisymm h hge
      have hone : store.length + 1 - 1000 = 1 := by omega
      rw [hone]
      rw [ih ((store ++ [r]).drop 1) (by simp; omega)]
      rw [(List.drop_append_of_le_length (by simp)).symm, List.drop_drop]
      have hidx : 1 + (((store ++ [r]).drop 1).length + rest.length - 1000)
          = store.length + (r :: rest).length - 1000 := by
        simp only [List.length_drop, List.length_append, List.length_cons, List.length_nil]
        omega
      rw [hidx, List.append_assoc, List.singleton_append]

/-- From an empty store, a batch of appends keeps the most recent 1000. -/
theorem foldl_appendRecord_nil (rs : List MarketData) :
    List.foldl appendRecord [] rs = rs.drop (rs.length - 1000) := by
  simpa using foldl_appendRecord_eq_drop rs [] (by simp)

/-- C3. Starting from the empty store, after the n-th append of any
sequence the length is `min n 1000`; every prefix `rs.take n` is the state
"after n appends so far", so this is the capacity invariant after each
call, and in particular the length never exceeds 1000. -/
theorem c3_capacity_invariant (rs : List MarketData) (n : Nat) (hn : n ≤ rs.length) :
    (List.foldl appendRecord [] (rs.take n)).length = min n 1000 := by
  rw [foldl_appendRecord_nil, List.length_drop, List.length_take]
  omega

theorem c3_capacity_invariant_witness :
    2 ≤ ([⟨"BTCUSD", 50000, 3 / 2, 1⟩, ⟨"ETHUSD", 4000, 1, 2⟩,
          ⟨"BTCUSD", 50001, 2, 3⟩] : List MarketData).length ∧
    (List.foldl appendRecord [] (([⟨"BTCUSD", 50000, 3 / 2, 1⟩, ⟨"ETHUSD", 4000, 1, 2⟩,
          ⟨"BTCUSD", 50001, 2, 3⟩] : List MarketData).take 2)).length = min 2 1000 :=
  ⟨by simp, c3_capacity_invariant _ 2 (by simp)⟩

/-- The i-th distinct record of the eviction scenario (distinct by
timestamp). -/
def recordAt (i : Nat) : MarketData :=
  ⟨"BTCUSD", 50000, 3 / 2, i⟩

theorem recordAt_injective : Function.Injective recordAt := by
  intro a b hab
  exact congrArg MarketData.timestamp hab

/-- 1001 pairwise-distinct records. -/
def manyRecords : List MarketData :=
  (List.range 1001).map recordAt

theorem manyRecords_length : manyRecords.length = 1001 := by
  simp [manyRecords]

theorem manyRecords_nodup : manyRecords.Nodup :=
  List.Nodup.map recordAt_injective (List.nodup_range 1001)

/-- C4. Appending 1001 distinct records to the empty store leaves exactly
records #2..#1001 (`rs.tail`) in arrival order, and record #1 (`rs.head?`)
is absent. -/
theorem c4_fifo_eviction (rs : List MarketData) (hlen : rs.length = 1001) (hnd : rs.Nodup) :
    List.foldl appendRecord [] rs = rs.tail ∧
    ∀ x, rs.head? = some x → x ∉ List.foldl appendRecord [] rs := by
  have hfold : List.foldl appendRecord [] rs = rs.tail := by
    rw [foldl_appendRecord_nil, hlen]
    have hone : (1001 : Nat) - 1000 = 1 := by norm_num
    rw [hone, List.drop_one]
  refine ⟨hfold, ?_⟩
  intro x hx
  rw [hfold]
  cases rs with
  | nil => simp at hx
  | cons a t =>
    simp only [List.head?_cons, Option.some.injEq] at hx
    subst hx
    simpa using (List.nodup_cons.mp hnd).1

theorem c4_fifo_eviction_witness :
    manyRecords.length = 1001 ∧ manyRecords.Nodup ∧
    (List.foldl appendRecord [] manyRecords = manyRecords.tail ∧
     ∀ x, manyRecords.head? = some x → x ∉ List.foldl appendRecord [] manyRecords) :=
  ⟨manyRecords_length, manyRecords_nodup,
    c4_fifo_eviction manyRecords manyRecords_length manyRecords_nodup⟩

/-! ## Snapshot claims -/

/-- The snapshot is the store's current contents (the clone is
value-identical to the original). -/
theorem get_latest_data_eq (data : List MarketData) : get_latest_data data = data :=
  rfl

/-- C7 (amended: the claim as stated fails once N exceeds the capacity;
see the counterexample).  For N ≤ 1000 appends from the empty store, the
snapshot returned by `get_latest_data` is exactly those N records in
insertion order.  The returned value is `data.clone()`: in the pure model
it is a list value, so no later `appendRecord` (which only produces a new
store) can alter it. -/
theorem c7_snapshot_isolation (rs : List MarketData) (h : rs.length ≤ 1000) :
    get_latest_data (List.foldl appendRecord [] rs) = rs := by
  simp only [get_latest_data]
  rw [foldl_appendRecord_nil, Nat.sub_eq_zero_of_le h, List.drop_zero]

theorem c7_snapshot_isolation_witness :
    ([⟨"BTCUSD", 50000, 3 / 2, 1234567890⟩] : List MarketData).length ≤ 1000 ∧
    get_latest_data (List.foldl appendRecord [] ([⟨"BTCUSD", 50000, 3 / 2, 1234567890⟩] : List MarketData))
      = [⟨"BTCUSD", 50000, 3 / 2, 1234567890⟩] :=
  ⟨by simp, c7_snapshot_isolation _ (by simp)⟩

/-- C7 counterexample: after N = 1001 appends the snapshot does NOT
contain "exactly those N records" — the oldest was evicted, so the claim
as stated (for every N) is false. -/
theorem c7_snapshot_isolation_counterexample :
    get_latest_data (List.foldl appendRecord [] manyRecords) ≠ manyRecords := by
  intro hEq
  have h1 : (get_latest_data (List.foldl appendRecord [] manyRecords)).length = 1000 := by
    rw [get_latest_data_eq, foldl_appendRecord_nil, List.length_drop, manyRecords_length]
  rw [hEq, manyRecords_length] at h1
  exact absurd h1 (by norm_num)

/-! ## Ingestion loop claims -/

/-- C1 (amended: the code does NOT propagate the receive error; see the
counterexample).  A transport-level error on receive is terminal: the loop
stops receiving (the remaining buffered input `rest` is left unconsumed,
the Closed state), the store and sent frames are untouched — but the
error is only logged; the loop `break`s and `connect` returns `Ok(())`. -/
theorem c1_receive_error_stops_loop (e : WsError) (rest : List InMsg) (k : Nat)
    (store : List MarketData) (sent : List OutMsg) (sendRes : Nat → Option WsError) :
    processMessages sendRes (InMsg.recvErr e :: rest) k store sent
      = ⟨ConnResult.ok, store, sent, rest⟩ :=
  rfl

/-- C1 counterexample: a fresh `connect` whose first receive yields a
transport error returns the success result `Ok(())` (src/main.rs lines
77-81: the `Err(e)` arm logs and `break`s, and the function ends with
`Ok(())`), contradicting "connect returns an error result rather than
success". -/
theorem c1_receive_error_counterexample :
    (connect none (fun _ => none) [InMsg.recvErr ⟨0⟩]).result = ConnResult.ok :=
  rfl

/-- C5. An inbound ping whose pong reply succeeds emits exactly one
outbound pong carrying the same payload, leaves the store untouched, and
the loop continues with the rest of the input. -/
theorem c5_keepalive_round_trip (payload : List Nat) (rest : List InMsg) (k : Nat)
    (store : List MarketData) (sent : List OutMsg) (sendRes : Nat → Option WsError)
    (h : sendRes k = none) :
    processMessages sendRes (InMsg.ok (Frame.ping payload) :: rest) k store sent
      = processMessages sendRes rest (k + 1) store (sent ++ [OutMsg.pong payload]) := by
  simp only [processMessages, h]

theorem c5_keepalive_round_trip_witness :
    (fun _ : Nat => (none : Option WsError)) 1 = none ∧
    processMessages (fun _ => none) [InMsg.ok (Frame.ping [9, 8, 7])] 1 [] [OutMsg.text subscribeMsg]
      = processMessages (fun _ => none) [] 2 [] ([OutMsg.text subscribeMsg] ++ [OutMsg.pong [9, 8, 7]]) :=
  ⟨rfl, c5_keepalive_round_trip [9, 8, 7] [] 1 [] [OutMsg.text subscribeMsg] (fun _ => none) rfl⟩

/-- C6. A close frame ends the loop with success, leaving the buffered
remainder `rest` unconsumed and the store and sent frames untouched. -/
theorem c6_orderly_shutdown (rest : List InMsg) (k : Nat)
    (store : List MarketData) (sent : List OutMsg) (sendRes : Nat → Option WsError) :
    processMessages sendRes (InMsg.ok Frame.close :: rest) k store sent
      = ⟨ConnResult.ok, store, sent, rest⟩ :=
  rfl

/-- C8. Send failures are terminal and propagated: a failing subscription
send (send 0) makes `connect` return that error with nothing consumed,
and a failing pong reply (send k) makes the loop return that error with
the remaining input unconsumed. -/
theorem c8_send_failure_terminal (sendRes : Nat → Option WsError) (e1 e2 : WsError)
    (msgs : List InMsg) (payload : List Nat) (rest : List InMsg) (k : Nat)
    (store : List MarketData) (sent : List OutMsg) :
    (sendRes 0 = some e1 → connect none sendRes msgs = ⟨ConnResult.err e1, [], [], msgs⟩) ∧
    (sendRes k = some e2 →
      processMessages sendRes (InMsg.ok (Frame.ping payload) :: rest) k store sent
        = ⟨ConnResult.err e2, store, sent, rest⟩) := by
  constructor
  · intro h0
    simp only [connect, h0]
  · intro hk
    simp only [processMessages, hk]

theorem c8_send_failure_terminal_witness :
    ((fun _ : Nat => some (⟨3⟩ : WsError)) 0 = some ⟨3⟩ →
      connect none (fun _ => some ⟨3⟩) [InMsg.ok Frame.close]
        = ⟨ConnResult.err ⟨3⟩, [], [], [InMsg.ok Frame.close]⟩) ∧
    ((fun _ : Nat => some (⟨3⟩ : WsError)) 1 = some ⟨3⟩ →
      processMessages (fun _ => some ⟨3⟩) [InMsg.ok (Frame.ping [5]), InMsg.ok Frame.close] 1 [] []
        = ⟨ConnResult.err ⟨3⟩, [], [], [InMsg.ok Frame.close]⟩) :=
  c8_send_failure_terminal (fun _ => some ⟨3⟩) ⟨3⟩ ⟨3⟩ [InMsg.ok Frame.close] [5]
    [InMsg.ok Frame.close] 1 [] []

/-! ## Decode filtering claims -/

/-- The key list of a JSON object (empty for non-objects). -/
def jsonKeys : Json → List String
  | Json.obj fields => fields.map Prod.fst
  | _ => []

/-- C2 (amended: the decode filter is serde decoding, not an exact-shape
check; see the counterexample).  Every inbound text whose payload fails to
decode as a Record — not valid JSON, a non-object/non-array value, or a
missing, ill-typed or duplicated required field — is discarded: the store
is unchanged and the loop continues with the rest of the input. -/
theorem c2_decode_filtering (p : Option Json) (rest : List InMsg) (k : Nat)
    (store : List MarketData) (sent : List OutMsg) (sendRes : Nat → Option WsError)
    (h : p.bind fromJson? = none) :
    processMessages sendRes (InMsg.ok (Frame.text p) :: rest) k store sent
      = processMessages sendRes rest k store sent := by
  simp only [processMessages, h]

theorem c2_decode_filtering_witness :
    ((some (Json.obj [("symbol", Json.str "BTCUSD"), ("volume", Json.num (JNum.posInt 1)),
        ("timestamp", Json.num (JNum.posInt 2))])).bind fromJson? = none) ∧
    processMessages (fun _ => none)
        [InMsg.ok (Frame.text (some (Json.obj [("symbol", Json.str "BTCUSD"),
          ("volume", Json.num (JNum.posInt 1)), ("timestamp", Json.num (JNum.posInt 2))]))),
         InMsg.ok Frame.close] 1 [] []
      = processMessages (fun _ => none) [InMsg.ok Frame.close] 1 [] [] :=
  ⟨rfl, c2_decode_filtering _ _ _ _ _ _ rfl⟩

/-- A payload carrying the four expected fields plus an extra one. -/
def extraFieldMsg : Json :=
  Json.obj [("symbol", Json.str "BTCUSD"), ("price", Json.num (JNum.posInt 50000)),
            ("volume", Json.num (JNum.posInt 1)), ("timestamp", Json.num (JNum.posInt 2)),
            ("sequence", Json.null)]

/-- C2 counterexample: a payload that does NOT match the expected shape
exactly (it carries a fifth field, `sequence`) is nevertheless decoded
(serde ignores unknown fields by default) and appended: the store's
length changes from 0 to 1, contradicting "the message is discarded". -/
theorem c2_decode_filtering_counterexample :
    jsonKeys extraFieldMsg ≠ ["symbol", "price", "volume", "timestamp"] ∧
    fromJson? extraFieldMsg = some ⟨"BTCUSD", 50000, 1, 2⟩ ∧
    (processMessages (fun _ => none) [InMsg.ok (Frame.text (some extraFieldMsg))] 1 [] []).store.length = 1 :=
  ⟨by decide, by decide, rfl⟩

/-- One decode step of each field of `mkDataMsgNum`, plus termination:
unfolding the recursive decoder one input pair at a time. -/
theorem decodeFields_symbol_step (rest : List (String × Json)) (s : String)
    (p? v? : Option Rat) (t? : Option Nat) :
    decodeFields (("symbol", Json.str s) :: rest) none p? v? t?
      = decodeFields rest (some s) p? v? t? :=
  rfl

theorem decodeFields_price_step (rest : List (String × Json)) (jn : JNum)
    (s? : Option String) (v? : Option Rat) (t? : Option Nat) :
    decodeFields (("price", Json.num jn) :: rest) s? none v? t?
      = decodeFields rest s? (some (asF64 jn)) v? t? :=
  rfl

theorem decodeFields_volume_step (rest : List (String × Json)) (jn : JNum)
    (s? : Option String) (p? : Option Rat) (t? : Option Nat) :
    decodeFields (("volume", Json.num jn) :: rest) s? p? none t?
      = decodeFields rest s? p? (some (asF64 jn)) t? :=
  rfl

theorem decodeFields_timestamp_step (rest : List (String × Json)) (jn : JNum)
    (s? : Option String) (p? v? : Option Rat) :
    decodeFields (("timestamp", Json.num jn) :: rest) s? p? v? none
      = match asU64 jn with
        | some t => decodeFields rest s? p? v? (some t)
        | none => none :=
  rfl

theorem decodeFields_done (s : String) (p v : Rat) (t : Nat) :
    decodeFields [] (some s) (some p) (some v) (some t) = some ⟨s, p, v, t⟩ :=
  rfl

theorem fromJson?_obj (fields : List (String × Json)) :
    fromJson? (Json.obj fields) = decodeFields fields none none none none :=
  rfl

theorem mkDataMsgNum_eq (s : String) (p v : Rat) (t : JNum) :
    mkDataMsgNum s p v t
      = Json.obj [("symbol", Json.str s), ("price", Json.num (JNum.float p)),
                  ("volume", Json.num (JNum.float v)), ("timestamp", Json.num t)] :=
  rfl

theorem asU64_posInt (t : Nat) :
    asU64 (JNum.posInt t) = if t < 2 ^ 64 then some t else none :=
  rfl

/-- A well-formed data payload decodes to exactly its four field values. -/
theorem fromJson?_mkDataMsgNum_posInt (s : String) (p v : Rat) (t : Nat) (ht : t < 2 ^ 64) :
    fromJson? (mkDataMsgNum s p v (JNum.posInt t)) = some ⟨s, p, v, t⟩ := by
  rw [mkDataMsgNum_eq, fromJson?_obj, decodeFields_symbol_step, decodeFields_price_step,
    decodeFields_volume_step, decodeFields_timestamp_step, asU64_posInt, if_pos ht]
  exact decodeFields_done s (asF64 (JNum.float p)) (asF64 (JNum.float v)) t

/-- C9.  A payload whose fields are well-typed but outside the stated
domain — empty symbol, negative price or volume — decodes successfully
and is appended: the core performs no domain validation. -/
theorem c9_no_domain_validation (s : String) (p v : Rat) (t : Nat) (ht : t < 2 ^ 64)
    (rest : List InMsg) (k : Nat) (store : List MarketData) (sent : List OutMsg)
    (sendRes : Nat → Option WsError) :
    fromJson? (mkDataMsgNum s p v (JNum.posInt t)) = some ⟨s, p, v, t⟩ ∧
    processMessages sendRes
        (InMsg.ok (Frame.text (some (mkDataMsgNum s p v (JNum.posInt t)))) :: rest) k store sent
      = processMessages sendRes rest k (appendRecord store ⟨s, p, v, t⟩) sent := by
  have hdec : fromJson? (mkDataMsgNum s p v (JNum.posInt t)) = some ⟨s, p, v, t⟩ :=
    fromJson?_mkDataMsgNum_posInt s p v t ht
  exact ⟨hdec, by simp only [processMessages, Option.some_bind, hdec]⟩

theorem c9_no_domain_validation_witness :
    (0 : Nat) < 2 ^ 64 ∧
    (fromJson? (mkDataMsgNum "" (-(3 / 2)) (-2) (JNum.posInt 0)) = some ⟨"", -(3 / 2), -2, 0⟩ ∧
     processMessages (fun _ => none)
         (InMsg.ok (Frame.text (some (mkDataMsgNum "" (-(3 / 2)) (-2) (JNum.posInt 0)))) :: []) 1 [] []
       = processMessages (fun _ => none) [] 1 (appendRecord [] ⟨"", -(3 / 2), -2, 0⟩) []) :=
  ⟨by norm_num, c9_no_domain_validation "" (-(3 / 2)) (-2) 0 (by norm_num) [] 1 [] [] (fun _ => none)⟩

/-- C10.  A payload whose `timestamp` is a negative integer or a float
(fractional) JSON number fails to decode — `u64` accepts neither — so the
message is discarded, the store is unchanged and the loop continues. -/
theorem c10_timestamp_domain (s : String) (p v : Rat) (n : Int) (q : Rat)
    (rest : List InMsg) (k : Nat) (store : List MarketData) (sent : List OutMsg)
    (sendRes : Nat → Option WsError) :
    fromJson? (mkDataMsgNum s p v (JNum.negInt n)) = none ∧
    fromJson? (mkDataMsgNum s p v (JNum.float q)) = none ∧
    processMessages sendRes
        (InMsg.ok (Frame.text (some (mkDataMsgNum s p v (JNum.negInt n)))) :: rest) k store sent
      = processMessages sendRes rest k store sent ∧
    processMessages sendRes
        (InMsg.ok (Frame.text (some (mkDataMsgNum s p v (JNum.float q)))) :: rest) k store sent
      = processMessages sendRes rest k store sent := by
  have h1 : fromJson? (mkDataMsgNum s p v (JNum.negInt n)) = none := by
    rw [mkDataMsgNum_eq, fromJson?_obj, decodeFields_symbol_step, decodeFields_price_step,
      decodeFields_volume_step, decodeFields_timestamp_step]
    rfl
  have h2 : fromJson? (mkDataMsgNum s p v (JNum.float q)) = none := by
    rw [mkDataMsgNum_eq, fromJson?_obj, decodeFields_symbol_step, decodeFields_price_step,
      decodeFields_volume_step, decodeFields_timestamp_step]
    rfl
  refine ⟨h1, h2, ?_, ?_⟩
  · simp only [processMessages, Option.some_bind, h1]
  · simp only [processMessages, Option.some_bind, h2]
